import Mathlib

/-!
Verification of the batch search orchestration core of the
Google-Search-Tool-GUI repository.

The embedding models the Python sources shallowly:

* strings are lists of characters (`List Char`);
* the external search engine (`search_engine.search_single_keyword`) is a
  parameter of type `Client`: for one keyword it either returns a result,
  returns `None` ("no result"), or raises an exception;
* the external CSV writer (`csv_writer.write_results`) is a parameter of
  type `Sink`: it returns a path, returns a falsy value, or raises;
* side effects that the claims talk about (client calls, pacing sleeps,
  sink writes) are recorded in an explicit event trace;
* the process-wide interruption flag set by the signal handler is modelled
  as a function `Nat → Bool` telling whether the flag is observed as set at
  the check that opens each loop iteration.

Sources: `src/search_tool.py` (SearchTool.run_search, SearchTool.run,
SearchTool.save_results, SearchTool._cleanup_and_exit),
`src/input_processor.py` (InputProcessor._validate_keyword,
InputProcessor.read_keywords_from_file), `src/gui_main.py`
(SearchWorker.run).
-/

/-- A raw or validated search keyword (a Python string). -/
abbrev Keyword := List Char

/-- One successful search outcome, mirroring the `SearchResult` value used
by `search_tool.py` and `gui_main.py` (fields `keyword`, `title`, `url`,
`snippet`, `search_datetime`); the timestamp is abstracted to a `Nat`. -/
structure SearchResult where
  keyword : Keyword
  title : List Char
  url : List Char
  snippet : List Char
  search_datetime : Nat
deriving DecidableEq, Repr

/-- Outcome of one `search_engine.search_single_keyword(keyword)` call:
a result, a falsy `None` result, or a raised exception. -/
inductive CallOutcome where
  | success (r : SearchResult)
  | noResult
  | raises (msg : List Char)
deriving DecidableEq, Repr

/-- The external search engine port. -/
abbrev Client := Keyword → CallOutcome

/-- Outcome of one `csv_writer.write_results(results, filename)` call:
a path, a falsy return value, or a raised exception. -/
inductive SinkOutcome where
  | ok (path : List Char)
  | failed
  | raises (msg : List Char)
deriving DecidableEq, Repr

/-- The external CSV writer port; the second argument is the optional
caller-supplied filename (`None` lets the writer auto-generate one). -/
abbrev Sink := List SearchResult → Option (List Char) → SinkOutcome

/-- Observable side effects of a run, in order of occurrence. -/
inductive Event where
  | call (k : Keyword)
  | sleep
  | sink (results : List SearchResult) (filename : Option (List Char))
  | summary
deriving DecidableEq, Repr

/-- Mutable state of `SearchTool` during `run_search`: the local `results`
list (which moves in lockstep with `self.successful_results`), the
`failed_keywords` and `processed_keywords` lists, the `interrupted` flag
and the trace of emitted events. -/
structure SearchState where
  results : List SearchResult
  failed : List Keyword
  processed : List Keyword
  interrupted : Bool
  trace : List Event
deriving DecidableEq, Repr

/-- The state at the start of a run. -/
def initState : SearchState := ⟨[], [], [], false, []⟩

/-- The `for i, keyword in enumerate(keywords, 1)` loop of
`SearchTool.run_search` (src/search_tool.py lines 207-253), one keyword per
step.  `flag i` is whether `self.interrupted` is observed as set at the
check opening iteration `i` (0-based here); on success the result is
appended and on a falsy result the keyword is appended to
`failed_keywords`; both paths then append to `processed_keywords` and, if
more keywords remain and the delay is positive, sleep.  An exception from
the client is caught by the `except Exception` handler, which appends the
keyword to `failed_keywords` and `continue`s — skipping both the
`processed_keywords` append and the sleep.  Progress printing and logging
are elided. -/
def runSearchLoop (client : Client) (delay : ℚ) (flag : Nat → Bool) :
    Nat → List Keyword → SearchState → SearchState
  | _, [], s => s
  | i, k :: rest, s =>
    if flag i then
      { s with interrupted := true }
    else
      match client k with
      | .success r =>
        runSearchLoop client delay flag (i + 1) rest
          { s with
            results := s.results ++ [r],
            processed := s.processed ++ [k],
            trace := s.trace ++
              (Event.call k ::
                (if rest ≠ [] ∧ 0 < delay then [Event.sleep] else [])) }
      | .noResult =>
        runSearchLoop client delay flag (i + 1) rest
          { s with
            failed := s.failed ++ [k],
            processed := s.processed ++ [k],
            trace := s.trace ++
              (Event.call k ::
                (if rest ≠ [] ∧ 0 < delay then [Event.sleep] else [])) }
      | .raises _ =>
        runSearchLoop client delay flag (i + 1) rest
          { s with
            failed := s.failed ++ [k],
            trace := s.trace ++ [Event.call k] }

/-- `SearchTool.run_search` (src/search_tool.py lines 184-260): an empty
keyword list returns immediately; otherwise the loop runs from a fresh
state. -/
def run_search (client : Client) (delay : ℚ) (flag : Nat → Bool)
    (keywords : List Keyword) : SearchState :=
  if keywords = [] then initState
  else runSearchLoop client delay flag 0 keywords initState

/-- `SearchTool.save_results` (src/search_tool.py lines 283-327): an empty
result list returns `None` without touching the writer; otherwise the
writer is called once; on a truthy path a summary file is additionally
attempted (its own failure is caught and only logged); a falsy return or a
raised exception is caught and yields `None`.  Returns the saved path and
the emitted events. -/
def save_results (sink : Sink) (results : List SearchResult)
    (filename : Option (List Char)) : Option (List Char) × List Event :=
  if results = [] then (none, [])
  else
    match sink results filename with
    | .ok path => (some path, [Event.sink results filename, Event.summary])
    | .failed => (none, [Event.sink results filename])
    | .raises _ => (none, [Event.sink results filename])

/-- The emergency filename built by `SearchTool._cleanup_and_exit`
(src/search_tool.py line 397-398): a function of the formatted current
time only. -/
def emergencyFilename (timestamp : List Char) : List Char :=
  ("emergency_save_".data) ++ timestamp ++ (".csv".data)

/-- Result of `SearchTool._cleanup_and_exit`: the process exit code, the
path reported by the save attempt, the (untouched) collected results, and
the emitted events. -/
structure CleanupResult where
  exitCode : Nat
  savedPath : Option (List Char)
  results : List SearchResult
  trace : List Event
deriving DecidableEq, Repr

/-- `SearchTool._cleanup_and_exit` (src/search_tool.py lines 391-410): if
any results were collected, save them under the timestamped emergency
filename (any exception from the save is caught and only printed), then
clean up and exit with code 1.  The collected results themselves are never
modified. -/
def cleanup_and_exit (sink : Sink) (successful_results : List SearchResult)
    (timestamp : List Char) : CleanupResult :=
  if successful_results = [] then ⟨1, none, successful_results, []⟩
  else
    let saved := save_results sink successful_results
      (some (emergencyFilename timestamp))
    ⟨1, saved.1, successful_results, saved.2⟩

/-- Result of `SearchTool.run`: exit code, final result list and event
trace. -/
structure RunResult where
  exitCode : Nat
  results : List SearchResult
  trace : List Event
deriving DecidableEq, Repr

/-- `SearchTool.run` (src/search_tool.py lines 329-389), after
initialization and argument parsing: empty keywords exit with code 1;
a failed connectivity preflight (`test_connection`, lines 165-182 — the
boolean outcome of `search_engine.validate_connection`, with a raised
exception also reported as failure) exits with code 1 before any search;
otherwise `run_search` runs and a non-empty result list is saved by
`save_results` with an auto-generated filename, exit code 0 on a saved
path and 1 otherwise. -/
def run (client : Client) (sink : Sink) (connectivity : Bool) (delay : ℚ)
    (flag : Nat → Bool) (keywords : List Keyword) : RunResult :=
  if keywords = [] then ⟨1, [], []⟩
  else if connectivity = false then ⟨1, [], []⟩
  else
    let s := run_search client delay flag keywords
    if s.results = [] then ⟨1, s.results, s.trace⟩
    else
      let saved := save_results sink s.results none
      match saved.1 with
      | some _ => ⟨0, s.results, s.trace ++ saved.2⟩
      | none => ⟨1, s.results, s.trace ++ saved.2⟩

/-- Terminal picture of a run interrupted by SIGINT/SIGTERM. -/
structure InterruptedRun where
  interrupted : Bool
  results : List SearchResult
  failed : List Keyword
  emergencyInput : List SearchResult
  exitCode : Nat
  trace : List Event
deriving DecidableEq, Repr

/-- Semantics of the interrupt signal arriving between loop iterations
after the first `cut` keywords have been handled: the handler installed by
`SearchTool._setup_signal_handlers` (src/search_tool.py lines 51-60) sets
`self.interrupted` and invokes `_cleanup_and_exit`, which saves the
results collected so far (`self.successful_results`) under the emergency
filename and exits with code 1. -/
def signalInterruptedRun (client : Client) (sink : Sink) (delay : ℚ)
    (keywords : List Keyword) (cut : Nat) (timestamp : List Char) :
    InterruptedRun :=
  let s := runSearchLoop client delay (fun _ => false) 0
    (keywords.take cut) initState
  let c := cleanup_and_exit sink s.results timestamp
  ⟨true, s.results, s.failed, s.results, c.exitCode, s.trace ++ c.trace⟩

/-- ASCII whitespace stripped by Python's `str.strip()` (the model
restricts attention to the ASCII range). -/
def pyIsSpace (c : Char) : Bool :=
  c = ' ' || c = '\t' || c = '\n' || c = '\r' || c = '\x0b' || c = '\x0c'

/-- Python's `str.strip()`: drop whitespace from both ends. -/
def pyStrip (s : List Char) : List Char :=
  ((s.dropWhile pyIsSpace).reverse.dropWhile pyIsSpace).reverse

/-- The character test of `InputProcessor._validate_keyword`
(src/input_processor.py line 290): a control character (code point below
32) other than tab, line feed or carriage return. -/
def isBadControl (c : Char) : Bool :=
  !(c = '\t' || c = '\n' || c = '\r') && decide (c.toNat < 32)

/-- `InputProcessor._validate_keyword` (src/input_processor.py lines
262-295): reject empty or whitespace-only input, strip, reject on length
over 200, length below 1, or a forbidden control character; otherwise
return the stripped keyword.  Rejection returns `none` (a warning, never
an exception). -/
def validate_keyword (keyword : List Char) : Option (List Char) :=
  if keyword = [] ∨ pyStrip keyword = [] then none
  else
    let kw := pyStrip keyword
    if 200 < kw.length then none
    else if kw.length < 1 then none
    else if kw.any isBadControl then none
    else some kw

/-- The line loop of `InputProcessor.read_keywords_from_file`
(src/input_processor.py lines 235-246): strip each line, skip it when it
is empty or starts with `#` or `//`, otherwise keep it when
`_validate_keyword` accepts it. -/
def read_keywords_loop : List (List Char) → List (List Char)
  | [] => []
  | line :: rest =>
    let l := pyStrip line
    if l.isEmpty || ['#'].isPrefixOf l || ['/', '/'].isPrefixOf l then
      read_keywords_loop rest
    else
      match validate_keyword l with
      | some kw => kw :: read_keywords_loop rest
      | none => read_keywords_loop rest

/-- `InputProcessor.read_keywords_from_file` (src/input_processor.py lines
214-253) after the file has been read and decoded into lines (file access
and encoding detection are external concerns): filter and validate the
lines, and fail with an empty-input error when no valid keyword remains. -/
def read_keywords_from_lines (lines : List (List Char)) :
    Except (List Char) (List (List Char)) :=
  let keywords := read_keywords_loop lines
  if keywords = [] then Except.error ("no valid keywords found".data)
  else Except.ok keywords

/-- The `while` loop body of `SearchWorker.run` in the GUI
(src/gui_main.py lines 68-101): same shape as `run_search` — the pacing
sleep (lines 93-96) sits inside the `try` block after a successful or
no-result call, and the `except` path skips it. -/
def searchWorkerLoop (client : Client) (delay : ℚ) (running : Nat → Bool) :
    Nat → Nat → List Keyword → List SearchResult × List Event →
    List SearchResult × List Event
  | _, _, [], acc => acc
  | i, total, k :: rest, acc =>
    if running i then
      match client k with
      | .success r =>
        searchWorkerLoop client delay running (i + 1) total rest
          (acc.1 ++ [r], acc.2 ++
            (Event.call k ::
              (if i + 1 < total ∧ 0 < delay then [Event.sleep] else [])))
      | .noResult =>
        searchWorkerLoop client delay running (i + 1) total rest
          (acc.1, acc.2 ++
            (Event.call k ::
              (if i + 1 < total ∧ 0 < delay then [Event.sleep] else [])))
      | .raises _ =>
        searchWorkerLoop client delay running (i + 1) total rest
          (acc.1, acc.2 ++ [Event.call k])
    else acc

/-- Specification-side helpers used to characterize the loop. -/
def extractSuccess (client : Client) (k : Keyword) : Option SearchResult :=
  match client k with
  | .success r => some r
  | _ => none

/-- Whether a call for `k` ends in the failed list (no result or raised). -/
def callFailed (client : Client) (k : Keyword) : Bool :=
  match client k with
  | .success _ => false
  | _ => true

/-- Whether a call for `k` raises an exception. -/
def callRaised (client : Client) (k : Keyword) : Bool :=
  match client k with
  | .raises _ => true
  | _ => false

/-- The events an uninterrupted `run_search` loop emits for a keyword
list, with the pacing decision of each iteration made against its own
remainder. -/
def traceOf (client : Client) (delay : ℚ) : List Keyword → List Event
  | [] => []
  | k :: rest =>
    (match client k with
     | .raises _ => [Event.call k]
     | _ =>
       Event.call k ::
         (if rest ≠ [] ∧ 0 < delay then [Event.sleep] else []))
    ++ traceOf client delay rest

/-- The events emitted for keywords that are all followed by further
keywords (so the pacing test `i < total_keywords` is true throughout). -/
def traceSeg (client : Client) (delay : ℚ) : List Keyword → List Event
  | [] => []
  | k :: rest =>
    (match client k with
     | .raises _ => [Event.call k]
     | _ => Event.call k :: (if 0 < delay then [Event.sleep] else []))
    ++ traceSeg client delay rest

/-- Recognizer for client-call events. -/
def isCallEvent : Event → Bool
  | .call _ => true
  | _ => false

/-- Recognizer for sink-write events. -/
def isSinkEvent : Event → Bool
  | .sink _ _ => true
  | _ => false

/-- Characterization of the uninterrupted loop: results are the successes
in order, the failed list collects no-result and raising keywords, the
processed list the non-raising ones, and the trace is `traceOf`. -/
lemma runSearchLoop_noflag (client : Client) (delay : ℚ) :
    ∀ (l : List Keyword) (i : Nat) (s : SearchState),
      runSearchLoop client delay (fun _ => false) i l s =
        { results := s.results ++ l.filterMap (extractSuccess client),
          failed := s.failed ++ l.filter (callFailed client),
          processed := s.processed ++ l.filter (fun k => !callRaised client k),
          interrupted := s.interrupted,
          trace := s.trace ++ traceOf client delay l } := by
  intro l
  induction l with
  | nil =>
    intro i s
    simp [runSearchLoop, traceOf]
  | cons k rest ih =>
    intro i s
    rw [runSearchLoop]
    simp only [Bool.false_eq_true, if_false]
    cases hc : client k with
    | success r =>
      dsimp only
      rw [ih]
      simp [extractSuccess, callFailed, callRaised, hc, traceOf,
        List.filterMap_cons, List.filter_cons, List.append_assoc]
    | noResult =>
      dsimp only
      rw [ih]
      simp [extractSuccess, callFailed, callRaised, hc, traceOf,
        List.filterMap_cons, List.filter_cons, List.append_assoc]
    | raises m =>
      dsimp only
      rw [ih]
      simp [extractSuccess, callFailed, callRaised, hc, traceOf,
        List.filterMap_cons, List.filter_cons, List.append_assoc]

/-- A flag that is never observed as set makes the loop agree with the
canonical uninterrupted loop. -/
lemma runSearchLoop_flag_congr (client : Client) (delay : ℚ)
    (flag : Nat → Bool) (hf : ∀ i, flag i = false) :
    runSearchLoop client delay flag =
      runSearchLoop client delay (fun _ => false) := by
  have h : flag = fun _ => false := funext hf
  rw [h]

/-- `run_search` without interruption, in closed form.  The empty-keyword
early return produces the same picture, so no non-emptiness hypothesis is
needed. -/
lemma run_search_noflag (client : Client) (delay : ℚ)
    (keywords : List Keyword) :
    run_search client delay (fun _ => false) keywords =
      { results := keywords.filterMap (extractSuccess client),
        failed := keywords.filter (callFailed client),
        processed := keywords.filter (fun k => !callRaised client k),
        interrupted := false,
        trace := traceOf client delay keywords } := by
  by_cases h : keywords = []
  · subst h
    simp [run_search, initState, traceOf]
  · rw [run_search, if_neg h, runSearchLoop_noflag]
    simp [initState]

/-- Every keyword ends up counted exactly once: as a success or as a
failure. -/
lemma filterMap_add_filter_length (client : Client) :
    ∀ l : List Keyword,
      (l.filterMap (extractSuccess client)).length
        + (l.filter (callFailed client)).length = l.length := by
  intro l
  induction l with
  | nil => simp
  | cons k rest ih =>
    cases hc : client k <;>
      · simp [extractSuccess, callFailed, hc, List.filterMap_cons,
          List.filter_cons]
        omega

/-- The success count equals the number of keywords whose call succeeds. -/
lemma filterMap_length_eq_filter_success (client : Client) :
    ∀ l : List Keyword,
      (l.filterMap (extractSuccess client)).length
        = (l.filter (fun k => !callFailed client k)).length := by
  intro l
  induction l with
  | nil => simp
  | cons k rest ih =>
    cases hc : client k <;>
      simp [extractSuccess, callFailed, hc, List.filterMap_cons,
        List.filter_cons, ih]

/-- The call events of an uninterrupted run are exactly the keywords, in
order. -/
lemma traceOf_filter_call (client : Client) (delay : ℚ) :
    ∀ l : List Keyword,
      (traceOf client delay l).filter isCallEvent = l.map Event.call := by
  intro l
  induction l with
  | nil => simp [traceOf]
  | cons k rest ih =>
    cases hc : client k with
    | success r =>
      by_cases hcond : rest ≠ [] ∧ 0 < delay <;>
        simp [traceOf, hc, hcond, List.filter_append, isCallEvent, ih]
    | noResult =>
      by_cases hcond : rest ≠ [] ∧ 0 < delay <;>
        simp [traceOf, hc, hcond, List.filter_append, isCallEvent, ih]
    | raises m =>
      simp [traceOf, hc, List.filter_append, isCallEvent, ih]

/-- The search loop itself never writes to the sink. -/
lemma traceOf_filter_sink (client : Client) (delay : ℚ) :
    ∀ l : List Keyword,
      (traceOf client delay l).filter isSinkEvent = [] := by
  intro l
  induction l with
  | nil => simp [traceOf]
  | cons k rest ih =>
    cases hc : client k with
    | success r =>
      by_cases hcond : rest ≠ [] ∧ 0 < delay <;>
        simp [traceOf, hc, hcond, List.filter_append, isSinkEvent, ih]
    | noResult =>
      by_cases hcond : rest ≠ [] ∧ 0 < delay <;>
        simp [traceOf, hc, hcond, List.filter_append, isSinkEvent, ih]
    | raises m =>
      simp [traceOf, hc, List.filter_append, isSinkEvent, ih]

/-- Splitting the loop trace at a point with keywords still to come: every
keyword of the first segment sees a non-empty remainder, so its pacing
test reduces to the delay test. -/
lemma traceOf_append (client : Client) (delay : ℚ) :
    ∀ (l1 l2 : List Keyword), l2 ≠ [] →
      traceOf client delay (l1 ++ l2) =
        traceSeg client delay l1 ++ traceOf client delay l2 := by
  intro l1
  induction l1 with
  | nil => intro l2 _; simp [traceSeg]
  | cons k rest ih =>
    intro l2 h
    have hne : rest ++ l2 ≠ [] := by
      simp [h]
    cases hc : client k with
    | success r =>
      simp only [List.cons_append, traceOf, traceSeg, hc, List.append_eq]
      rw [ih l2 h]
      simp [hne, List.append_assoc]
    | noResult =>
      simp only [List.cons_append, traceOf, traceSeg, hc, List.append_eq]
      rw [ih l2 h]
      simp [hne, List.append_assoc]
    | raises m =>
      simp only [List.cons_append, traceOf, traceSeg, hc, List.append_eq]
      rw [ih l2 h]
      simp [List.append_assoc]

/-- The call events of a trace segment are its keywords, in order. -/
lemma traceSeg_filter_call (client : Client) (delay : ℚ) :
    ∀ l : List Keyword,
      (traceSeg client delay l).filter isCallEvent = l.map Event.call := by
  intro l
  induction l with
  | nil => simp [traceSeg]
  | cons k rest ih =>
    cases hc : client k with
    | success r =>
      by_cases hcond : 0 < delay <;>
        simp [traceSeg, hc, hcond, List.filter_append, isCallEvent, ih]
    | noResult =>
      by_cases hcond : 0 < delay <;>
        simp [traceSeg, hc, hcond, List.filter_append, isCallEvent, ih]
    | raises m =>
      simp [traceSeg, hc, List.filter_append, isCallEvent, ih]

/-- A non-empty keyword list always opens its trace with its own call
event. -/
lemma traceOf_cons_head (client : Client) (delay : ℚ) (k : Keyword)
    (rest : List Keyword) :
    ∃ t, traceOf client delay (k :: rest) = Event.call k :: t := by
  cases hc : client k with
  | success r =>
    exact ⟨(if rest ≠ [] ∧ 0 < delay then [Event.sleep] else [])
      ++ traceOf client delay rest, by simp [traceOf, hc]⟩
  | noResult =>
    exact ⟨(if rest ≠ [] ∧ 0 < delay then [Event.sleep] else [])
      ++ traceOf client delay rest, by simp [traceOf, hc]⟩
  | raises m =>
    exact ⟨traceOf client delay rest, by simp [traceOf, hc]⟩

/-- Counting bound for arbitrary interruption patterns: each loop step
adds at most one keyword to the two tallies. -/
lemma runSearchLoop_count_le (client : Client) (delay : ℚ)
    (flag : Nat → Bool) :
    ∀ (l : List Keyword) (i : Nat) (s : SearchState),
      (runSearchLoop client delay flag i l s).results.length
          + (runSearchLoop client delay flag i l s).failed.length
        ≤ s.results.length + s.failed.length + l.length := by
  intro l
  induction l with
  | nil =>
    intro i s
    simp [runSearchLoop]
  | cons k rest ih =>
    intro i s
    rw [runSearchLoop]
    by_cases hf : flag i = true
    · simp only [hf, if_true]
      simp
    · simp only [Bool.not_eq_true] at hf
      simp only [hf, Bool.false_eq_true, if_false]
      cases hc : client k with
      | success r =>
        dsimp only
        refine le_trans (ih _ _) ?_
        simp
        try omega
      | noResult =>
        dsimp only
        refine le_trans (ih _ _) ?_
        simp
        try omega
      | raises m =>
        dsimp only
        refine le_trans (ih _ _) ?_
        simp
        try omega

example :
    run_search (fun k => CallOutcome.success ⟨k, [], [], [], 0⟩) 1
      (fun _ => false) [['a'], ['b']] =
    ⟨[⟨['a'], [], [], [], 0⟩, ⟨['b'], [], [], [], 0⟩], [], [['a'], ['b']],
      false,
      [Event.call ['a'], Event.sleep, Event.call ['b']]⟩ := by
  decide

example :
    (run_search (fun _ => CallOutcome.noResult) 1 (fun _ => false)
      [['k']]).failed = [['k']] := by
  decide

example :
    (run_search (fun k => if k = ['a'] then CallOutcome.raises []
        else CallOutcome.success ⟨k, [], [], [], 0⟩) 1
      (fun _ => false) [['a'], ['b']]).trace =
    [Event.call ['a'], Event.call ['b']] := by
  decide

example : validate_keyword (' ' :: 'a' :: ['\t']) = some ['a'] := by decide

example : read_keywords_from_lines [['#', ' ', 'n']] =
    Except.error ("no valid keywords found".data) := by rfl

/-- The emergency-save path never performs search calls. -/
lemma cleanup_trace_filter_call (sink : Sink) (rs : List SearchResult)
    (ts : List Char) :
    (cleanup_and_exit sink rs ts).trace.filter isCallEvent = [] := by
  by_cases h : rs = []
  · simp [cleanup_and_exit, h]
  · cases hs : sink rs (some (emergencyFilename ts)) <;>
      simp [cleanup_and_exit, save_results, h, hs, isCallEvent]

/-- The emergency-save path performs exactly one sink write, under the
timestamped emergency filename, whatever the sink outcome. -/
lemma cleanup_trace_filter_sink (sink : Sink) (rs : List SearchResult)
    (ts : List Char) (h : rs ≠ []) :
    (cleanup_and_exit sink rs ts).trace.filter isSinkEvent
      = [Event.sink rs (some (emergencyFilename ts))] := by
  cases hs : sink rs (some (emergencyFilename ts)) <;>
    simp [cleanup_and_exit, save_results, h, hs, isSinkEvent]

/-- C1: for every non-empty keyword sequence and a client that succeeds on
every call (returning a result carrying that keyword), `run_search`
produces exactly one result per keyword, in input order with matching
keywords, and an empty failed list. -/
theorem claim_C1 (client : Client) (delay : ℚ) (keywords : List Keyword)
    (_hne : keywords ≠ [])
    (hok : ∀ k ∈ keywords,
      ∃ r, client k = CallOutcome.success r ∧ r.keyword = k) :
    (run_search client delay (fun _ => false) keywords).results.length
        = keywords.length
  ∧ (run_search client delay (fun _ => false) keywords).results.map
        (fun r => r.keyword) = keywords
  ∧ (run_search client delay (fun _ => false) keywords).failed = [] := by
  have main : ∀ l : List Keyword,
      (∀ k ∈ l, ∃ r, client k = CallOutcome.success r ∧ r.keyword = k) →
      (l.filterMap (extractSuccess client)).map (fun r => r.keyword) = l
        ∧ l.filter (callFailed client) = [] := by
    intro l
    induction l with
    | nil => simp
    | cons k rest ih =>
      intro h
      obtain ⟨r, hr, hkw⟩ := h k (by simp)
      have hrest := ih (fun k2 hk2 => h k2 (by simp [hk2]))
      simp [extractSuccess, callFailed, hr, hkw, List.filterMap_cons,
        List.filter_cons, hrest.1, hrest.2]
  have hm := main keywords hok
  rw [run_search_noflag]
  dsimp only
  refine ⟨?_, hm.1, hm.2⟩
  have hlen := congrArg List.length hm.1
  simpa using hlen

/-- C1 witness at a concrete two-keyword input. -/
theorem claim_C1_witness :
    (run_search (fun k => CallOutcome.success ⟨k, [], [], [], 0⟩) 1
        (fun _ => false) [['a'], ['b']]).results.length = 2
  ∧ (run_search (fun k => CallOutcome.success ⟨k, [], [], [], 0⟩) 1
        (fun _ => false) [['a'], ['b']]).results.map (fun r => r.keyword)
      = [['a'], ['b']]
  ∧ (run_search (fun k => CallOutcome.success ⟨k, [], [], [], 0⟩) 1
        (fun _ => false) [['a'], ['b']]).failed = [] := by
  have h := claim_C1 (fun k => CallOutcome.success ⟨k, [], [], [], 0⟩) 1
    [['a'], ['b']] (by decide)
    (fun k _ => ⟨⟨k, [], [], [], 0⟩, rfl, rfl⟩)
  exact ⟨h.1, h.2.1, h.2.2⟩

/-- C2: a failed connectivity preflight makes `run` exit with code 1,
return no results, and emit no events at all — in particular the per-term
search operation is never invoked for any keyword. -/
theorem claim_C2 (client : Client) (sink : Sink) (delay : ℚ)
    (flag : Nat → Bool) (keywords : List Keyword) (connectivity : Bool)
    (hconn : connectivity = false) :
    run client sink connectivity delay flag keywords = ⟨1, [], []⟩
  ∧ (run client sink connectivity delay flag keywords).trace.filter
      isCallEvent = [] := by
  subst hconn
  have h1 : run client sink false delay flag keywords = ⟨1, [], []⟩ := by
    by_cases h : keywords = [] <;> simp [run, h]
  exact ⟨h1, by rw [h1]; rfl⟩

/-- C2 witness at a concrete input. -/
theorem claim_C2_witness :
    run (fun _ => CallOutcome.noResult) (fun _ _ => SinkOutcome.failed)
      false 1 (fun _ => false) [['a']] = ⟨1, [], []⟩ :=
  (claim_C2 (fun _ => CallOutcome.noResult) (fun _ _ => SinkOutcome.failed)
    1 (fun _ => false) [['a']] false rfl).1

/-- C5: at every prefix point of a run, succeeded plus failed tallies stay
within the number of submitted keywords, and an uninterrupted run ends
with them summing to exactly that number. -/
theorem claim_C5 (client : Client) (delay : ℚ) (flag : Nat → Bool)
    (keywords : List Keyword) (j : Nat) :
    (runSearchLoop client delay flag 0 (keywords.take j)
          initState).results.length
        + (runSearchLoop client delay flag 0 (keywords.take j)
          initState).failed.length
      ≤ keywords.length
  ∧ ((∀ i, flag i = false) →
      (run_search client delay flag keywords).results.length
        + (run_search client delay flag keywords).failed.length
      = keywords.length) := by
  constructor
  · refine le_trans
      (runSearchLoop_count_le client delay flag (keywords.take j) 0
        initState) ?_
    simp only [initState, List.length_take, List.length_nil]
    omega
  · intro hf
    rw [show flag = (fun _ => false) from funext hf, run_search_noflag]
    dsimp only
    exact filterMap_add_filter_length client keywords

/-- C5 witness at a concrete input. -/
theorem claim_C5_witness :
    (runSearchLoop (fun _ => CallOutcome.noResult) 1 (fun _ => false) 0
          (([['a']] : List Keyword).take 1) initState).results.length
        + (runSearchLoop (fun _ => CallOutcome.noResult) 1 (fun _ => false) 0
          (([['a']] : List Keyword).take 1) initState).failed.length
      ≤ 1
  ∧ (run_search (fun _ => CallOutcome.noResult) 1 (fun _ => false)
        [['a']]).results.length
      + (run_search (fun _ => CallOutcome.noResult) 1 (fun _ => false)
        [['a']]).failed.length = 1 := by
  have h := claim_C5 (fun _ => CallOutcome.noResult) 1 (fun _ => false)
    [['a']] 1
  exact ⟨h.1, h.2 (fun i => rfl)⟩

/-- C6: keyword validation trims surrounding whitespace and rejects
exactly when the trimmed string is empty, longer than 200 characters, or
contains a control character (code point below 32) other than tab, line
feed or carriage return; otherwise it returns the trimmed string. -/
theorem claim_C6 (keyword : List Char) :
    validate_keyword keyword =
      if pyStrip keyword = [] ∨ 200 < (pyStrip keyword).length
          ∨ (pyStrip keyword).any isBadControl = true
        then none else some (pyStrip keyword) := by
  unfold validate_keyword
  by_cases h1 : keyword = [] ∨ pyStrip keyword = []
  · rcases h1 with h | h
    · subst h
      simp [pyStrip]
    · simp [h]
  · obtain ⟨ha, hb⟩ := not_or.mp h1
    rw [if_neg h1]
    have hpos : 0 < (pyStrip keyword).length := List.length_pos.mpr hb
    by_cases h2 : 200 < (pyStrip keyword).length
    · simp [h2]
    · have h3 : ¬(pyStrip keyword).length < 1 := by omega
      by_cases h4 : (pyStrip keyword).any isBadControl
      · simp [h2, h3, h4]
      · simp [h2, h3, h4, hb]

/-- The file-reading loop equals the strip–filter–validate pipeline. -/
lemma read_keywords_loop_eq (lines : List (List Char)) :
    read_keywords_loop lines =
      ((lines.map pyStrip).filter
          (fun l => !(l.isEmpty || ['#'].isPrefixOf l
            || ['/', '/'].isPrefixOf l))).filterMap validate_keyword := by
  induction lines with
  | nil => simp [read_keywords_loop]
  | cons line rest ih =>
    cases hA : (pyStrip line).isEmpty <;>
    cases hB : List.isPrefixOf ['#'] (pyStrip line) <;>
    cases hC : List.isPrefixOf ['/', '/'] (pyStrip line) <;>
    cases hv : validate_keyword (pyStrip line) <;>
    simp [read_keywords_loop, hA, hB, hC, hv, ih, List.filter_cons,
      List.filterMap_cons, List.isEmpty_iff]

set_option maxRecDepth 4000 in
/-- C7: reading keywords from decoded file lines strips each line, skips
blank lines and lines starting with a hash or a double slash, validates
the rest, and fails with the empty-input error exactly when no valid
keyword remains; the spec's example inputs behave as stated. -/
theorem claim_C7 (lines : List (List Char)) :
    (read_keywords_from_lines lines =
      if ((lines.map pyStrip).filter
            (fun l => !(l.isEmpty || ['#'].isPrefixOf l
              || ['/', '/'].isPrefixOf l))).filterMap validate_keyword = []
      then Except.error ("no valid keywords found".data)
      else Except.ok (((lines.map pyStrip).filter
            (fun l => !(l.isEmpty || ['#'].isPrefixOf l
              || ['/', '/'].isPrefixOf l))).filterMap validate_keyword))
  ∧ read_keywords_from_lines ["alpha".data, "".data, "beta".data]
      = Except.ok ["alpha".data, "beta".data]
  ∧ read_keywords_from_lines [("# note".data)]
      = Except.error ("no valid keywords found".data)
  ∧ validate_keyword (List.replicate 250 'x') = none := by
  refine ⟨?_, by rfl, by rfl, by decide⟩
  rw [read_keywords_from_lines, read_keywords_loop_eq]

/-- C8: the emergency save path writes to the sink exactly once, under the
deterministic timestamp-qualified filename, keeps the collected results
untouched whatever the sink does, never performs search calls, returns
normally with exit code 1, and reports a sink failure as a missing saved
path rather than raising. -/
theorem claim_C8 (sink : Sink) (results : List SearchResult)
    (timestamp : List Char) (hne : results ≠ []) :
    (cleanup_and_exit sink results timestamp).results = results
  ∧ (cleanup_and_exit sink results timestamp).exitCode = 1
  ∧ (cleanup_and_exit sink results timestamp).trace.filter isSinkEvent
      = [Event.sink results (some (emergencyFilename timestamp))]
  ∧ (cleanup_and_exit sink results timestamp).trace.filter isCallEvent = []
  ∧ (∀ path, sink results (some (emergencyFilename timestamp))
        = SinkOutcome.ok path →
      (cleanup_and_exit sink results timestamp).savedPath = some path)
  ∧ (∀ m, sink results (some (emergencyFilename timestamp))
        = SinkOutcome.raises m →
      (cleanup_and_exit sink results timestamp).savedPath = none) := by
  refine ⟨by simp [cleanup_and_exit, hne], by simp [cleanup_and_exit, hne],
    cleanup_trace_filter_sink sink results timestamp hne,
    cleanup_trace_filter_call sink results timestamp, ?_, ?_⟩
  · intro path hp
    simp [cleanup_and_exit, save_results, hne, hp]
  · intro m hm
    simp [cleanup_and_exit, save_results, hne, hm]

/-- C8 witness: a raising sink at a concrete input. -/
theorem claim_C8_witness :
    (cleanup_and_exit (fun _ _ => SinkOutcome.raises [])
        [⟨['k'], [], [], [], 0⟩] ['t']).results = [⟨['k'], [], [], [], 0⟩]
  ∧ (cleanup_and_exit (fun _ _ => SinkOutcome.raises [])
        [⟨['k'], [], [], [], 0⟩] ['t']).savedPath = none := by
  have h := claim_C8 (fun _ _ => SinkOutcome.raises [])
    [⟨['k'], [], [], [], 0⟩] ['t'] (by decide)
  exact ⟨h.1, h.2.2.2.2.2 [] rfl⟩

/-- C9 counterexample: a call that succeeds but returns no result is
counted as failed by the code — with a single keyword and a client
returning `None`, the failed list holds that keyword (count 1, not 0),
while the result list stays empty. -/
theorem claim_C9_counterexample :
    (run_search (fun _ => CallOutcome.noResult) 1 (fun _ => false)
        [['k']]).failed = [['k']]
  ∧ (run_search (fun _ => CallOutcome.noResult) 1 (fun _ => false)
        [['k']]).failed.length = 1
  ∧ (run_search (fun _ => CallOutcome.noResult) 1 (fun _ => false)
        [['k']]).results = [] := by
  exact ⟨by decide, by decide, by decide⟩

/-- C9 amended: a call that succeeds but returns no result contributes no
entry to the result list and does not raise the succeeded count, but the
code folds it into the failed tally: the keyword is appended to the failed
list (the simplification the spec explicitly permits an implementer to
choose). -/
theorem claim_C9_amended (client : Client) (delay : ℚ)
    (keywords : List Keyword) (k : Keyword)
    (hk : k ∈ keywords) (hc : client k = CallOutcome.noResult) :
    k ∈ (run_search client delay (fun _ => false) keywords).failed
  ∧ (run_search client delay (fun _ => false) keywords).results
      = keywords.filterMap (extractSuccess client)
  ∧ (run_search client delay (fun _ => false) keywords).results.length
      = (keywords.filter (fun k2 => !callFailed client k2)).length := by
  rw [run_search_noflag]
  dsimp only
  refine ⟨?_, rfl, filterMap_length_eq_filter_success client keywords⟩
  exact List.mem_filter.mpr ⟨hk, by simp [callFailed, hc]⟩

/-- C9 amended witness at a concrete input. -/
theorem claim_C9_amended_witness :
    ['k'] ∈ (run_search (fun _ => CallOutcome.noResult) 1 (fun _ => false)
        [['k']]).failed
  ∧ (run_search (fun _ => CallOutcome.noResult) 1 (fun _ => false)
        [['k']]).results
      = ([['k']] : List Keyword).filterMap
          (extractSuccess (fun _ => CallOutcome.noResult))
  ∧ (run_search (fun _ => CallOutcome.noResult) 1 (fun _ => false)
        [['k']]).results.length
      = (([['k']] : List Keyword).filter
          (fun k2 => !callFailed (fun _ => CallOutcome.noResult) k2)).length := by
  have h := claim_C9_amended (fun _ => CallOutcome.noResult) 1 [['k']] ['k']
    (by decide) rfl
  exact ⟨h.1, h.2.1, h.2.2⟩

/-- The emergency-exit path always reports exit code 1. -/
lemma cleanup_exitCode_eq_one (sink : Sink) (rs : List SearchResult)
    (ts : List Char) : (cleanup_and_exit sink rs ts).exitCode = 1 := by
  by_cases h : rs = [] <;> simp [cleanup_and_exit, h]

/-- C10: saving an empty result list returns `None` without calling the
CSV writer, the emergency-exit path with no collected results performs no
sink write at all, and consequently an interruption before any success
leaves the whole trace free of sink events. -/
theorem claim_C10 (sink : Sink) (filename : Option (List Char))
    (client : Client) (delay : ℚ) (keywords : List Keyword) (cut : Nat)
    (timestamp : List Char)
    (hempty : (keywords.take cut).filterMap (extractSuccess client) = []) :
    save_results sink [] filename = (none, [])
  ∧ cleanup_and_exit sink [] timestamp = ⟨1, none, [], []⟩
  ∧ (signalInterruptedRun client sink delay keywords cut
      timestamp).trace.filter isSinkEvent = [] := by
  refine ⟨by simp [save_results], by simp [cleanup_and_exit], ?_⟩
  simp only [signalInterruptedRun, runSearchLoop_noflag, initState]
  simp [hempty, cleanup_and_exit, List.filter_append, traceOf_filter_sink]

/-- C10 witness: one keyword whose call returns no result, interrupted
after it. -/
theorem claim_C10_witness :
    save_results (fun _ _ => SinkOutcome.ok ['p']) [] none = (none, [])
  ∧ cleanup_and_exit (fun _ _ => SinkOutcome.ok ['p']) [] ['t']
      = ⟨1, none, [], []⟩
  ∧ (signalInterruptedRun (fun _ => CallOutcome.noResult)
      (fun _ _ => SinkOutcome.ok ['p']) 1 [['k']] 1
      ['t']).trace.filter isSinkEvent = [] := by
  have h := claim_C10 (fun _ _ => SinkOutcome.ok ['p']) none
    (fun _ => CallOutcome.noResult) 1 [['k']] 1 ['t'] (by decide)
  exact ⟨h.1, h.2.1, h.2.2⟩

/-- C3: an interrupt signal arriving after the first `cut` keywords stops
the run with `interrupted` set and exit code 1; the results are exactly
the successes among the first `cut` keywords in input order; exactly
`cut` keywords are tallied as succeeded or failed (later keywords are
counted as neither); the call events are exactly those first `cut`
keywords, so no later keyword's search is ever invoked; and the
emergency-save path receives exactly that partial result set. -/
theorem claim_C3 (client : Client) (sink : Sink) (delay : ℚ)
    (keywords : List Keyword) (cut : Nat) (timestamp : List Char)
    (hcut : cut < keywords.length) :
    (signalInterruptedRun client sink delay keywords cut
        timestamp).interrupted = true
  ∧ (signalInterruptedRun client sink delay keywords cut
        timestamp).exitCode = 1
  ∧ (signalInterruptedRun client sink delay keywords cut
        timestamp).results
      = (keywords.take cut).filterMap (extractSuccess client)
  ∧ (signalInterruptedRun client sink delay keywords cut
        timestamp).results.length
      + (signalInterruptedRun client sink delay keywords cut
        timestamp).failed.length = cut
  ∧ (signalInterruptedRun client sink delay keywords cut
        timestamp).trace.filter isCallEvent
      = (keywords.take cut).map Event.call
  ∧ (signalInterruptedRun client sink delay keywords cut
        timestamp).emergencyInput
      = (signalInterruptedRun client sink delay keywords cut
        timestamp).results
  ∧ (signalInterruptedRun client sink delay keywords cut
        timestamp).trace
      = traceOf client delay (keywords.take cut)
        ++ (cleanup_and_exit sink
            ((keywords.take cut).filterMap (extractSuccess client))
            timestamp).trace := by
  have htake : (keywords.take cut).length = cut := by
    rw [List.length_take]
    omega
  simp only [signalInterruptedRun, runSearchLoop_noflag, initState]
  refine ⟨by trivial, cleanup_exitCode_eq_one sink _ timestamp, by simp,
    ?_, ?_, by simp, by simp⟩
  · simp only [List.nil_append]
    rw [filterMap_add_filter_length client (keywords.take cut), htake]
  · simp only [List.nil_append, List.filter_append,
      traceOf_filter_call, cleanup_trace_filter_call, List.append_nil]

/-- C3 witness: two keywords, interrupted after the first succeeds. -/
theorem claim_C3_witness :
    (signalInterruptedRun (fun k => CallOutcome.success ⟨k, [], [], [], 0⟩)
        (fun _ _ => SinkOutcome.ok ['p']) 1 [['a'], ['b']] 1
        ['t']).interrupted = true
  ∧ (signalInterruptedRun (fun k => CallOutcome.success ⟨k, [], [], [], 0⟩)
        (fun _ _ => SinkOutcome.ok ['p']) 1 [['a'], ['b']] 1
        ['t']).results
      = (([['a'], ['b']] : List Keyword).take 1).filterMap
          (extractSuccess (fun k => CallOutcome.success ⟨k, [], [], [], 0⟩))
  ∧ (signalInterruptedRun (fun k => CallOutcome.success ⟨k, [], [], [], 0⟩)
        (fun _ _ => SinkOutcome.ok ['p']) 1 [['a'], ['b']] 1
        ['t']).trace.filter isCallEvent
      = (([['a'], ['b']] : List Keyword).take 1).map Event.call := by
  have h := claim_C3 (fun k => CallOutcome.success ⟨k, [], [], [], 0⟩)
    (fun _ _ => SinkOutcome.ok ['p']) 1 [['a'], ['b']] 1 ['t'] (by decide)
  exact ⟨h.1, h.2.2.1, h.2.2.2.2.1⟩

/-- C4 counterexample: with two keywords, delay 1 and a client whose call
for the first keyword raises an exception, the trace of `run_search` is
the two calls back to back with no pacing sleep anywhere — the `except`
handler `continue`s past the inter-term wait although the first term
failed and was not the last; the GUI worker loop behaves the same way. -/
theorem claim_C4_counterexample :
    (run_search
        (fun k => if k = ['a'] then CallOutcome.raises []
          else CallOutcome.success ⟨k, [], [], [], 0⟩) 1
        (fun _ => false) [['a'], ['b']]).trace
      = [Event.call ['a'], Event.call ['b']]
  ∧ Event.sleep ∉ (run_search
        (fun k => if k = ['a'] then CallOutcome.raises []
          else CallOutcome.success ⟨k, [], [], [], 0⟩) 1
        (fun _ => false) [['a'], ['b']]).trace
  ∧ (0 : ℚ) < 1
  ∧ (searchWorkerLoop
        (fun k => if k = ['a'] then CallOutcome.raises []
          else CallOutcome.success ⟨k, [], [], [], 0⟩) 1
        (fun _ => true) 0 2 [['a'], ['b']] ([], [])).2
      = [Event.call ['a'], Event.call ['b']] := by
  exact ⟨by decide, by decide, by norm_num, by decide⟩

/-- C4 amended: pacing holds for every non-final keyword whose call
completes without raising: with a positive delay and no interruption, a
sleep event sits between that keyword's call event and the next keyword's
call event.  A keyword whose call raises an exception proceeds to the
next keyword without the pacing wait. -/
theorem claim_C4_amended (client : Client) (delay : ℚ)
    (keywords : List Keyword) (i : Nat) (k knext : Keyword)
    (hdelay : 0 < delay)
    (hk : keywords[i]? = some k)
    (hknext : keywords[i + 1]? = some knext)
    (hnr : ∀ m, client k ≠ CallOutcome.raises m) :
    ∃ pre post,
      (run_search client delay (fun _ => false) keywords).trace
        = pre ++ Event.call k :: Event.sleep :: Event.call knext :: post
      ∧ pre.countP isCallEvent = i := by
  obtain ⟨hlen1, hgk⟩ := List.getElem?_eq_some.mp hknext
  have hlen : i < keywords.length := by omega
  have hgk0 : keywords[i] = k := (List.getElem?_eq_some.mp hk).2
  have hsplit : keywords = keywords.take i
      ++ (k :: knext :: keywords.drop (i + 2)) := by
    conv =>
      lhs
      rw [← List.take_append_drop i keywords]
    rw [List.drop_eq_getElem_cons hlen, hgk0,
      List.drop_eq_getElem_cons hlen1, hgk]
  refine ⟨traceSeg client delay (keywords.take i),
    (traceOf_cons_head client delay knext (keywords.drop (i + 2))).choose,
    ?_, ?_⟩
  case refine_2 =>
    rw [List.countP_eq_length_filter, traceSeg_filter_call,
      List.length_map, List.length_take]
    omega
  case refine_1 =>
    rw [run_search_noflag]
    dsimp only
    conv =>
      lhs
      rw [hsplit]
    rw [traceOf_append client delay (keywords.take i)
      (k :: knext :: keywords.drop (i + 2)) (by simp)]
    have hhead := (traceOf_cons_head client delay knext
      (keywords.drop (i + 2))).choose_spec
    have hstep : traceOf client delay (k :: knext :: keywords.drop (i + 2))
        = Event.call k :: Event.sleep ::
          traceOf client delay (knext :: keywords.drop (i + 2)) := by
      cases hc : client k with
      | success r => simp [traceOf, hc, hdelay]
      | noResult => simp [traceOf, hc, hdelay]
      | raises m => exact absurd hc (hnr m)
    rw [hstep]
    exact congrArg
      (fun t => traceSeg client delay (List.take i keywords)
        ++ Event.call k :: Event.sleep :: t) hhead

/-- C4 amended witness: a succeeding first keyword paces before the
second. -/
theorem claim_C4_amended_witness :
    ∃ pre post,
      (run_search (fun k => CallOutcome.success ⟨k, [], [], [], 0⟩) 1
          (fun _ => false) [['a'], ['b']]).trace
        = pre ++ Event.call ['a'] :: Event.sleep :: Event.call ['b'] :: post
      ∧ pre.countP isCallEvent = 0 :=
  claim_C4_amended (fun k => CallOutcome.success ⟨k, [], [], [], 0⟩) 1
    [['a'], ['b']] 0 ['a'] ['b'] (by norm_num) rfl rfl (fun m => by simp)
